import Mathlib

set_option maxRecDepth 100000

/-
Shallow embedding of the PLC-5 chunked transfer engine of
src/src/protocols/ab2/plc5.c (libplctag, ab2 branch), together with
theorems settling the frozen claims about its specification.

Conventions of the embedding:
* C `int` values are `Int`; C `/` on `int` is `Int.tdiv` (truncation
  toward zero); unsigned 16-bit fields (`uint16_t`) are `Nat` reduced
  mod 65536 where the C arithmetic wraps.
* The request buffer is represented by the list of bytes written so far
  together with the integer cursor (`req_off`) and the capacity; each
  bounds-checked write appends one byte.
* The tag data buffer (`base_tag.data`, a raw C array) is represented as
  the whole byte address space `Nat → Nat`, so that writes past the end
  of the `size`-byte buffer remain observable instead of vanishing.
* Status codes are an inductive type standing for the PLCTAG_* integer
  constants.
* External collaborators (TSN allocation, request scheduling) are
  modelled as inputs assumed to succeed; their failure paths are outside
  every claim.
-/

namespace Plc5

/-- Status codes standing for the PLCTAG_STATUS_* / PLCTAG_ERR_* integer
constants used by the source. -/
inductive PlcStatus where
  | Ok
  | Pending
  | ErrTooSmall
  | ErrBadReply
  | ErrUnsupported
  | ErrNullPtr
  | ErrOutOfBounds
  | ErrValueOutOfRange
deriving DecidableEq, Repr

/-- One byte as stored by a C `(uint8_t)` cast: the value reduced mod 256
(Int `%` is Euclidean, hence the result is the nonnegative representative,
exactly the wrap performed by the cast on a two-complement machine). -/
def byteOf (v : Int) : Nat := (v % 256).toNat

/-- Modelled from the spec: the TRY_SET_BYTE macro (util/mem.h, not under
src/) performs an in-place buffer write at a cursor with a manual bounds
check, advancing the cursor; on overflow it reports OutOfBounds and never
writes out of bounds. -/
def trySetByte (cap : Int) (st : Int × List Nat) (v : Int) :
    Except PlcStatus (Int × List Nat) :=
  if st.1 < cap then .ok (st.1 + 1, st.2 ++ [byteOf v]) else .error .ErrOutOfBounds

/-- Modelled from the spec: TRY_SET_U16_LE (util/mem.h, not under src/)
writes a 16-bit value as two bounds-checked bytes, low byte first
(little-endian). -/
def trySetU16LE (cap : Int) (st : Int × List Nat) (v : Int) :
    Except PlcStatus (Int × List Nat) := do
  let st1 ← trySetByte cap st v
  trySetByte cap st1 (v / 256)

/-- Shallow embedding of `encode_plc5_logical_address`
(src/src/protocols/ab2/plc5.c lines 631-686).  The buffer cursor and the
bytes written are threaded as state; note the level-selector test is
`data_file_sub_elem > 0` while the sub-element field is emitted when
`data_file_sub_elem >= 0`, exactly as in the source. -/
def encode_plc5_logical_address (cap : Int) (st : Int × List Nat)
    (data_file_num data_file_elem data_file_sub_elem : Int) :
    Except PlcStatus (Int × List Nat) := do
  let st1 ← if data_file_sub_elem > 0 then trySetByte cap st 0x0E
            else trySetByte cap st 0x06
  let st2 ← if data_file_num ≤ 0xFE then trySetByte cap st1 data_file_num
            else do
              let s ← trySetByte cap st1 0xFF
              trySetU16LE cap s data_file_num
  let st3 ← if data_file_elem ≤ 0xFE then trySetByte cap st2 data_file_elem
            else do
              let s ← trySetByte cap st2 0xFF
              trySetU16LE cap s data_file_elem
  if data_file_sub_elem ≥ 0 then
    if data_file_sub_elem ≤ 0xFE then trySetByte cap st3 data_file_sub_elem
    else do
      let s ← trySetByte cap st3 0xFF
      trySetU16LE cap s data_file_sub_elem
  else pure st3

/-- Modelled from the spec: the PCCC command-type byte (ab2/common_defs.h,
not under src/); the wire format in the spec gives `cmd=0xF0`. -/
def PCCC_TYPED_CMD : Int := 0xF0

/-- Modelled from the spec: the PCCC success flag ORed into the command
byte of a response (ab2/common_defs.h, not under src/); the wire format
in the spec gives `cmd_echo|0x40`. -/
def PCCC_CMD_OK : Int := 0x40

/-- PLC5_RANGE_READ_FUNC (src line 69). -/
def PLC5_RANGE_READ_FUNC : Int := 0x01

/-- PLC5_RANGE_WRITE_FUNC (src line 70). -/
def PLC5_RANGE_WRITE_FUNC : Int := 0x00

/-- PLC5_WORD_RANGE_READ_MAX_PAYLOAD (src line 72). -/
def PLC5_WORD_RANGE_READ_MAX_PAYLOAD : Int := 244

/-- PLC5_WORD_RANGE_WRITE_MAX_PAYLOAD (src line 73). -/
def PLC5_WORD_RANGE_WRITE_MAX_PAYLOAD : Int := 244

/-- The byte a well-formed response must carry at offset 0
(`PCCC_TYPED_CMD | PCCC_CMD_OK`, src lines 412 and 586). -/
def cmdOkByte : Nat := byteOf PCCC_TYPED_CMD ||| byteOf PCCC_CMD_OK

/-- The per-tag transfer state `ab2_plc5_tag_t` (src lines 46-65) together
with the parts of the base tag the engines touch (`status`, `size`,
`data`).  `trans_offset` is a `uint16_t`, kept as a `Nat` < 65536 by
reducing mod 65536 at every update the C performs on the field. -/
structure Plc5Tag where
  elem_size : Nat
  elem_count : Nat
  data_file_num : Int
  data_file_elem : Int
  data_file_sub_elem : Int
  trans_offset : Nat
  size : Int
  data : Nat → Nat
  status : PlcStatus

/-- The per-round read transfer size computed by
`build_read_request_callback` (src lines 350-370): clamp the fixed max
payload to the bytes remaining, then round down to a whole number of
elements.  C `int` division truncates toward zero (`Int.tdiv`). -/
def read_trans_size (size : Int) (trans_offset : Nat) (elem_size : Nat) : Int :=
  let max0 : Int := PLC5_WORD_RANGE_READ_MAX_PAYLOAD
  let max1 : Int :=
    if size - (trans_offset : Int) < max0 then size - (trans_offset : Int) else max0
  let num_elems : Int := Int.tdiv max1 (elem_size : Int)
  num_elems * (elem_size : Int)

/-- The per-round write transfer size computed by
`build_write_request_callback` (src lines 515-535): the max payload less
the encoded-address length, clamped to the bytes remaining, rounded down
to a whole number of elements. -/
def write_trans_size (size : Int) (trans_offset : Nat) (elem_size : Nat)
    (addr_len : Int) : Int :=
  let max0 : Int := PLC5_WORD_RANGE_WRITE_MAX_PAYLOAD - addr_len
  let max1 : Int :=
    if size - (trans_offset : Int) < max0 then size - (trans_offset : Int) else max0
  let num_elems : Int := Int.tdiv max1 (elem_size : Int)
  num_elems * (elem_size : Int)

/-- Shallow embedding of `build_read_request_callback` (src lines
307-389).  The TSN fetched from the transport collaborator is an input
(its failure path is outside every claim); `data_start` is the incoming
`*data_start` cursor.  Returns the bytes written and the final cursor
(`*data_end`). -/
def build_read_request_callback (tag : Plc5Tag) (cap : Int) (data_start : Int)
    (tsn : Nat) : Except PlcStatus (List Nat × Int) := do
  let st0 : Int × List Nat := (data_start, [])
  let st1 ← trySetByte cap st0 PCCC_TYPED_CMD
  let st2 ← trySetByte cap st1 0
  let st3 ← trySetU16LE cap st2 (tsn : Int)
  let st4 ← trySetByte cap st3 PLC5_RANGE_READ_FUNC
  let st5 ← trySetU16LE cap st4 (tag.trans_offset : Int)
  let st6 ← trySetU16LE cap st5 (Int.tdiv tag.size 2)
  let st7 ← encode_plc5_logical_address cap st6 tag.data_file_num
              tag.data_file_elem tag.data_file_sub_elem
  let trans_size := read_trans_size tag.size tag.trans_offset tag.elem_size
  let st8 ← trySetByte cap st7 trans_size
  pure (st8.2, st8.1)

/-- Shallow embedding of `build_write_request_callback` (src lines
471-564).  `req_off` starts at 0 (src line 475).  The payload copy loop
(src lines 538-541) performs no bounds check, so the copy appends
unconditionally.  The tag comes back with `trans_offset` advanced by the
copied length at build time (src line 546, a `uint16_t` addition). -/
def build_write_request_callback (tag : Plc5Tag) (cap : Int) (tsn : Nat) :
    Except PlcStatus (List Nat × Plc5Tag) := do
  let st0 : Int × List Nat := (0, [])
  let st1 ← trySetByte cap st0 PCCC_TYPED_CMD
  let st2 ← trySetByte cap st1 0
  let st3 ← trySetU16LE cap st2 (tsn : Int)
  let st4 ← trySetByte cap st3 PLC5_RANGE_WRITE_FUNC
  let st5 ← trySetU16LE cap st4 ((tag.trans_offset / 2 : Nat) : Int)
  let st6 ← trySetU16LE cap st5 (Int.tdiv tag.size 2)
  let encoded_file_start := st6.1
  let st7 ← encode_plc5_logical_address cap st6 tag.data_file_num
              tag.data_file_elem tag.data_file_sub_elem
  let trans_size := write_trans_size tag.size tag.trans_offset tag.elem_size
                      (st7.1 - encoded_file_start)
  let payload := (List.range trans_size.toNat).map
                   (fun i => tag.data (tag.trans_offset + i))
  let st8 : Int × List Nat := (st7.1 + trans_size.toNat, st7.2 ++ payload)
  let tag1 := { tag with trans_offset := (tag.trans_offset + trans_size.toNat) % 65536 }
  pure (st8.2, tag1)

/-- Sequential byte copy `data[off + i] = l[i]` for `i = 0 .. l.length - 1`,
the loop of src lines 435-437. -/
def writeBytes (data : Nat → Nat) (off : Nat) : List Nat → (Nat → Nat)
  | [] => data
  | b :: rest => writeBytes (Function.update data off b) (off + 1) rest

/-- What the handler did after validating: failed, resubmitted a further
round via `plc_start_request`, or completed the transfer. -/
inductive HandleNext where
  | failed
  | resubmit
  | complete
deriving DecidableEq, Repr

/-- Shallow embedding of `handle_read_response_callback` (src lines
392-468).  `resp` is the byte slice `[*data_start, *data_end)`.  The
resubmission call to `plc_start_request` is modelled as succeeding (its
failure path is outside every claim).  Returns the status code, the
updated tag, and the action taken. -/
def handle_read_response_callback (tag : Plc5Tag) (resp : List Nat) :
    PlcStatus × Plc5Tag × HandleNext :=
  let data_size := resp.length
  if data_size < 4 then
    (.ErrTooSmall, { tag with status := .ErrTooSmall }, .failed)
  else if resp.getD 0 0 ≠ cmdOkByte then
    (.ErrBadReply, { tag with status := .ErrBadReply }, .failed)
  else if resp.getD 1 0 ≠ 0 then
    (.ErrBadReply, { tag with status := .ErrBadReply }, .failed)
  else
    let resp_data_size := data_size - 4
    let data1 := writeBytes tag.data tag.trans_offset (resp.drop 4)
    let off1 := (tag.trans_offset + resp_data_size) % 65536
    if (off1 : Int) < tag.size then
      (.Ok, { tag with data := data1, trans_offset := off1 }, .resubmit)
    else
      (.Ok, { tag with data := data1, trans_offset := 0, status := .Ok }, .complete)

/-- Shallow embedding of `handle_write_response_callback` (src lines
567-628). -/
def handle_write_response_callback (tag : Plc5Tag) (resp : List Nat) :
    PlcStatus × Plc5Tag × HandleNext :=
  let data_size := resp.length
  if data_size < 4 then
    (.ErrTooSmall, { tag with status := .ErrTooSmall }, .failed)
  else if resp.getD 0 0 ≠ cmdOkByte then
    (.ErrBadReply, { tag with status := .ErrBadReply }, .failed)
  else if resp.getD 1 0 ≠ 0 then
    (.ErrBadReply, { tag with status := .ErrBadReply }, .failed)
  else if (tag.trans_offset : Int) < tag.size then
    (.Ok, tag, .resubmit)
  else
    (.Ok, { tag with trans_offset := 0, status := .Ok }, .complete)

/-- Modelled from the spec: `str_cmp_i` (util/string.h, not under src/)
is a case-insensitive string comparison; equality holds exactly when the
lower-cased character sequences agree. -/
def strCmpIEq (a b : String) : Bool :=
  a.data.map Char.toLower == b.data.map Char.toLower

/-- Shallow embedding of `plc5_get_int_attrib` (src lines 266-290): the
status is overwritten with Ok up front, then the attribute is matched;
an unrecognized name sets Unsupported and returns the default value. -/
def plc5_get_int_attrib (tag : Plc5Tag) (attrib_name : String)
    (default_value : Int) : Int × Plc5Tag :=
  let tag1 := { tag with status := PlcStatus.Ok }
  if strCmpIEq attrib_name "elem_size" then ((tag1.elem_size : Int), tag1)
  else if strCmpIEq attrib_name "elem_count" then ((tag1.elem_count : Int), tag1)
  else (default_value, { tag1 with status := PlcStatus.ErrUnsupported })

/-- Shallow embedding of `plc5_tag_status` (src lines 215-227): returns
the stored base-tag status. -/
def plc5_tag_status (tag : Plc5Tag) : PlcStatus := tag.status

/-! ### Proof infrastructure -/

/-- The bytes a successful field write emits: one byte for values up to
0xFE, otherwise the escape byte 0xFF followed by the 16-bit
little-endian value. -/
def escField (v : Int) : List Nat :=
  if v ≤ 0xFE then [byteOf v] else [0xFF, byteOf v, byteOf (v / 256)]

/-- The bytes a successful run of `encode_plc5_logical_address` emits. -/
def encBytes (f e s : Int) : List Nat :=
  (if s > 0 then [0x0E] else [0x06]) ++ escField f ++ escField e ++
    (if s ≥ 0 then escField s else [])

theorem exceptBind_ok {ε α β : Type} {x : Except ε α} {f : α → Except ε β} {r : β}
    (h : x >>= f = .ok r) : ∃ a, x = .ok a ∧ f a = .ok r := by
  cases x with
  | error e => simp [Bind.bind, Except.bind] at h
  | ok a => exact ⟨a, rfl, by simpa [Bind.bind, Except.bind] using h⟩

theorem trySetByte_ok {cap : Int} {st : Int × List Nat} {v : Int}
    {r : Int × List Nat} (h : trySetByte cap st v = .ok r) :
    r = (st.1 + 1, st.2 ++ [byteOf v]) ∧ st.1 < cap := by
  unfold trySetByte at h
  split at h
  · exact ⟨by simpa using h.symm, by assumption⟩
  · simp at h

theorem trySetU16LE_ok {cap : Int} {st : Int × List Nat} {v : Int}
    {r : Int × List Nat} (h : trySetU16LE cap st v = .ok r) :
    r = (st.1 + 2, st.2 ++ [byteOf v, byteOf (v / 256)]) := by
  unfold trySetU16LE at h
  obtain ⟨a, ha, h2⟩ := exceptBind_ok h
  obtain ⟨ha', -⟩ := trySetByte_ok ha
  subst ha'
  obtain ⟨hr, -⟩ := trySetByte_ok h2
  simp [hr]
  ring

theorem escWrite_ok {cap : Int} {st : Int × List Nat} {v : Int}
    {r : Int × List Nat}
    (h : (if v ≤ 0xFE then trySetByte cap st v
          else do
            let s ← trySetByte cap st 0xFF
            trySetU16LE cap s v) = .ok r) :
    r = (st.1 + ((escField v).length : Int), st.2 ++ escField v) := by
  by_cases hv : v ≤ 0xFE
  · rw [if_pos hv] at h
    obtain ⟨hr, -⟩ := trySetByte_ok h
    simp [escField, if_pos hv, hr]
  · rw [if_neg hv] at h
    obtain ⟨a, ha, h2⟩ := exceptBind_ok h
    obtain ⟨ha', -⟩ := trySetByte_ok ha
    subst ha'
    have hr := trySetU16LE_ok h2
    have h255 : byteOf 255 = 255 := by decide
    simp only [hr, escField, if_neg hv, Prod.mk.injEq, List.length_cons,
      List.length_nil, h255]
    constructor
    · push_cast
      ring
    · simp [List.append_assoc]

theorem escWriteCont_ok {cap : Int} {st : Int × List Nat} {v : Int} {β : Type}
    {K : Int × List Nat → Except PlcStatus β} {r : β}
    (h : (if v ≤ 0xFE then trySetByte cap st v >>= K
          else trySetByte cap st 0xFF >>= fun a => trySetU16LE cap a v >>= K)
           = .ok r) :
    K (st.1 + ((escField v).length : Int), st.2 ++ escField v) = .ok r := by
  by_cases hv : v ≤ 0xFE
  · rw [if_pos hv] at h
    obtain ⟨a, ha, h⟩ := exceptBind_ok h
    obtain ⟨ha', -⟩ := trySetByte_ok ha
    subst ha'
    simpa [escField, if_pos hv] using h
  · rw [if_neg hv] at h
    obtain ⟨a, ha, h⟩ := exceptBind_ok h
    obtain ⟨ha', -⟩ := trySetByte_ok ha
    subst ha'
    obtain ⟨b, hb, h⟩ := exceptBind_ok h
    have hb' := trySetU16LE_ok hb
    subst hb'
    have harith : (st.1 + 1 + 2 : Int) = st.1 + 3 := by ring
    rw [harith, List.append_assoc] at h
    simpa [escField, if_neg hv, byteOf] using h

theorem encode_ok {cap : Int} {st : Int × List Nat} {f e s : Int}
    {r : Int × List Nat}
    (h : encode_plc5_logical_address cap st f e s = .ok r) :
    r = (st.1 + ((encBytes f e s).length : Int), st.2 ++ encBytes f e s) := by
  unfold encode_plc5_logical_address at h
  simp only [] at h
  have hsel : ∀ b : Int,
      trySetByte cap st b = .ok (st.1 + 1, st.2 ++ [byteOf b]) ∨
      trySetByte cap st b = .error .ErrOutOfBounds := by
    intro b
    unfold trySetByte
    split <;> simp
  by_cases hs : s > 0
  · rw [if_pos hs] at h
    obtain ⟨a1, h1, h⟩ := exceptBind_ok h
    obtain ⟨e1, -⟩ := trySetByte_ok h1
    subst e1
    have h := escWriteCont_ok h
    have h := escWriteCont_ok h
    simp only [] at h
    rw [if_pos (le_of_lt hs)] at h
    have e4 := escWrite_ok h
    subst e4
    simp only [encBytes, if_pos hs, if_pos (le_of_lt hs), Prod.mk.injEq]
    constructor
    · simp only [List.length_append, List.length_cons, List.length_nil]
      push_cast
      have : byteOf 0x0E = 0x0E := by decide
      ring
    · have : byteOf 0x0E = 0x0E := by decide
      simp [this, List.append_assoc]
  · rw [if_neg hs] at h
    obtain ⟨a1, h1, h⟩ := exceptBind_ok h
    obtain ⟨e1, -⟩ := trySetByte_ok h1
    subst e1
    have h := escWriteCont_ok h
    have h := escWriteCont_ok h
    simp only [] at h
    by_cases hs0 : s ≥ 0
    · rw [if_pos hs0] at h
      have e4 := escWrite_ok h
      subst e4
      simp only [encBytes, if_neg hs, if_pos hs0, Prod.mk.injEq]
      constructor
      · simp only [List.length_append, List.length_cons, List.length_nil]
        push_cast
        have : byteOf 0x06 = 0x06 := by decide
        ring
      · have : byteOf 0x06 = 0x06 := by decide
        simp [this, List.append_assoc]
    · rw [if_neg hs0] at h
      simp only [pure, Except.pure, Except.ok.injEq] at h
      subst h
      simp only [encBytes, if_neg hs, if_neg hs0, Prod.mk.injEq]
      constructor
      · simp only [List.length_append, List.length_cons, List.length_nil]
        push_cast
        have : byteOf 0x06 = 0x06 := by decide
        ring
      · have : byteOf 0x06 = 0x06 := by decide
        simp [this, List.append_assoc]

/-- The nine header bytes of a read request as built by
`build_read_request_callback`. -/
def readHeaderBytes (tag : Plc5Tag) (tsn : Nat) : List Nat :=
  [byteOf PCCC_TYPED_CMD, byteOf 0, byteOf (tsn : Int), byteOf ((tsn : Int) / 256),
   byteOf PLC5_RANGE_READ_FUNC, byteOf (tag.trans_offset : Int),
   byteOf ((tag.trans_offset : Int) / 256), byteOf (Int.tdiv tag.size 2),
   byteOf (Int.tdiv tag.size 2 / 256)]

/-- The nine header bytes of a write request as built by
`build_write_request_callback`. -/
def writeHeaderBytes (tag : Plc5Tag) (tsn : Nat) : List Nat :=
  [byteOf PCCC_TYPED_CMD, byteOf 0, byteOf (tsn : Int), byteOf ((tsn : Int) / 256),
   byteOf PLC5_RANGE_WRITE_FUNC, byteOf ((tag.trans_offset / 2 : Nat) : Int),
   byteOf (((tag.trans_offset / 2 : Nat) : Int) / 256), byteOf (Int.tdiv tag.size 2),
   byteOf (Int.tdiv tag.size 2 / 256)]

theorem build_read_ok {tag : Plc5Tag} {cap data_start : Int} {tsn : Nat}
    {r : List Nat × Int}
    (h : build_read_request_callback tag cap data_start tsn = .ok r) :
    r = (readHeaderBytes tag tsn
           ++ encBytes tag.data_file_num tag.data_file_elem tag.data_file_sub_elem
           ++ [byteOf (read_trans_size tag.size tag.trans_offset tag.elem_size)],
         data_start + 10
           + ((encBytes tag.data_file_num tag.data_file_elem
                tag.data_file_sub_elem).length : Int)) := by
  unfold build_read_request_callback at h
  simp only [] at h
  obtain ⟨a1, h1, h⟩ := exceptBind_ok h
  obtain ⟨e1, -⟩ := trySetByte_ok h1
  subst e1
  obtain ⟨a2, h2, h⟩ := exceptBind_ok h
  obtain ⟨e2, -⟩ := trySetByte_ok h2
  subst e2
  obtain ⟨a3, h3, h⟩ := exceptBind_ok h
  have e3 := trySetU16LE_ok h3
  subst e3
  obtain ⟨a4, h4, h⟩ := exceptBind_ok h
  obtain ⟨e4, -⟩ := trySetByte_ok h4
  subst e4
  obtain ⟨a5, h5, h⟩ := exceptBind_ok h
  have e5 := trySetU16LE_ok h5
  subst e5
  obtain ⟨a6, h6, h⟩ := exceptBind_ok h
  have e6 := trySetU16LE_ok h6
  subst e6
  obtain ⟨a7, h7, h⟩ := exceptBind_ok h
  have e7 := encode_ok h7
  subst e7
  obtain ⟨a8, h8, h⟩ := exceptBind_ok h
  obtain ⟨e8, -⟩ := trySetByte_ok h8
  subst e8
  simp only [pure, Except.pure, Except.ok.injEq] at h
  subst h
  simp only [readHeaderBytes, Prod.mk.injEq]
  constructor
  · simp [List.append_assoc]
  · ring

theorem build_write_ok {tag : Plc5Tag} {cap : Int} {tsn : Nat}
    {r : List Nat × Plc5Tag}
    (h : build_write_request_callback tag cap tsn = .ok r) :
    r = (writeHeaderBytes tag tsn
           ++ encBytes tag.data_file_num tag.data_file_elem tag.data_file_sub_elem
           ++ (List.range (write_trans_size tag.size tag.trans_offset tag.elem_size
                 ((encBytes tag.data_file_num tag.data_file_elem
                    tag.data_file_sub_elem).length : Int)).toNat).map
                (fun i => tag.data (tag.trans_offset + i)),
         { tag with trans_offset :=
             (tag.trans_offset
               + (write_trans_size tag.size tag.trans_offset tag.elem_size
                   ((encBytes tag.data_file_num tag.data_file_elem
                      tag.data_file_sub_elem).length : Int)).toNat) % 65536 }) := by
  unfold build_write_request_callback at h
  simp only [] at h
  obtain ⟨a1, h1, h⟩ := exceptBind_ok h
  obtain ⟨e1, -⟩ := trySetByte_ok h1
  subst e1
  obtain ⟨a2, h2, h⟩ := exceptBind_ok h
  obtain ⟨e2, -⟩ := trySetByte_ok h2
  subst e2
  obtain ⟨a3, h3, h⟩ := exceptBind_ok h
  have e3 := trySetU16LE_ok h3
  subst e3
  obtain ⟨a4, h4, h⟩ := exceptBind_ok h
  obtain ⟨e4, -⟩ := trySetByte_ok h4
  subst e4
  obtain ⟨a5, h5, h⟩ := exceptBind_ok h
  have e5 := trySetU16LE_ok h5
  subst e5
  obtain ⟨a6, h6, h⟩ := exceptBind_ok h
  have e6 := trySetU16LE_ok h6
  subst e6
  obtain ⟨a7, h7, h⟩ := exceptBind_ok h
  have e7 := encode_ok h7
  subst e7
  simp only [pure, Except.pure, Except.ok.injEq] at h
  subst h
  simp only [writeHeaderBytes, Prod.mk.injEq]
  constructor
  · simp [List.append_assoc, add_sub_cancel_left]
  · simp [add_sub_cancel_left]

theorem writeBytes_of_lt {data : Nat → Nat} {l : List Nat} {off k : Nat}
    (h : k < off) : writeBytes data off l k = data k := by
  induction l generalizing data off with
  | nil => rfl
  | cons b rest ih =>
    simp only [writeBytes]
    rw [ih (Nat.lt_succ_of_lt h)]
    exact Function.update_noteq (Nat.ne_of_lt h) _ _

theorem writeBytes_get {data : Nat → Nat} {l : List Nat} {off i : Nat}
    (h : i < l.length) : writeBytes data off l (off + i) = l.get ⟨i, h⟩ := by
  induction l generalizing data off i with
  | nil => simp at h
  | cons b rest ih =>
    cases i with
    | zero =>
      simp only [writeBytes, Nat.add_zero]
      rw [writeBytes_of_lt (Nat.lt_succ_self off)]
      simp [Function.update]
    | succ j =>
      simp only [writeBytes]
      have hidx : off + (j + 1) = (off + 1) + j := by omega
      rw [hidx, ih (by simpa using h)]
      simp

/-- Truncating C division of a nonnegative budget by a positive element
size, multiplied back: nonnegative, bounded by the budget, and a multiple
of the element size. -/
theorem tdiv_mul_bounds {m es : Int} (hm : 0 ≤ m) (hes : 0 < es) :
    0 ≤ Int.tdiv m es * es ∧ Int.tdiv m es * es ≤ m ∧ es ∣ Int.tdiv m es * es := by
  have he : Int.tdiv m es = m / es := Int.tdiv_eq_ediv hm (le_of_lt hes)
  refine ⟨?_, ?_, dvd_mul_left es (Int.tdiv m es)⟩
  · rw [he]
    exact mul_nonneg (Int.ediv_nonneg hm (le_of_lt hes)) (le_of_lt hes)
  · rw [he]
    exact Int.ediv_mul_le m (ne_of_gt hes)

/-! ### Claim theorems -/

/-- C1: code bug.  At (file_num=300, elem=3, sub_elem=0) the encoder emits
the two-level selector 0x06 as its first byte and still appends the
sub-element byte: the output is [0x06, 0xFF, 0x2C, 0x01, 0x03, 0x00], not
the [0x0E, 0xFF, 0x2C, 0x01, 0x03, 0x00] the claim (and the level comment
in the source together with the `>= 0` sub-element emission test)
requires.  The selector test `data_file_sub_elem > 0` disagrees with the
emission test `data_file_sub_elem >= 0` exactly at sub_elem = 0. -/
theorem c1_selector_code_bug :
    encode_plc5_logical_address 100 (0, []) 300 3 0
      = .ok (6, [0x06, 0xFF, 0x2C, 0x01, 0x03, 0x00])
    ∧ (0x06 : Nat) ≠ 0x0E := ⟨rfl, by decide⟩

/-- A concrete tag mid-transfer (trans_offset = 2 bytes) used to exhibit
the word-offset encoding of the two builders. -/
def tagWordOffset : Plc5Tag :=
  { elem_size := 2, elem_count := 250, data_file_num := 7, data_file_elem := 3,
    data_file_sub_elem := -1, trans_offset := 2, size := 500,
    data := fun _ => 0, status := .Ok }

/-- C2: code bug.  At byte offset 2, the read builder stores the raw byte
offset 2 in the 16-bit little-endian word-offset field (wire bytes 5-6),
not 2/2 = 1, although the source comments the field as "offset of the
transfer in words"; the write builder stores 1 as the claim states.  Both
store the word count 500/2 = 250. -/
theorem c2_read_offset_not_halved :
    (build_read_request_callback tagWordOffset 300 0 0).map
        (fun r => (r.1.getD 5 0 + 256 * r.1.getD 6 0,
                   r.1.getD 7 0 + 256 * r.1.getD 8 0)) = .ok (2, 250)
    ∧ (build_write_request_callback tagWordOffset 300 0).map
        (fun r => (r.1.getD 5 0 + 256 * r.1.getD 6 0,
                   r.1.getD 7 0 + 256 * r.1.getD 8 0)) = .ok (1, 250)
    ∧ tagWordOffset.trans_offset / 2 ≠ 2 := ⟨rfl, rfl, by decide⟩

/-- A concrete tag whose element size (245) exceeds the 244-byte read
budget, so the rounded per-round count is 0 while 500 bytes remain. -/
def tagZeroRound : Plc5Tag :=
  { elem_size := 245, elem_count := 1, data_file_num := 7, data_file_elem := 3,
    data_file_sub_elem := -1, trans_offset := 0, size := 500,
    data := fun _ => 0, status := .Ok }

/-- C6 counterexample: the rounded byte count is 0 and bytes remain, yet
the read builder succeeds (no ValueOutOfRange, a request is produced)
with a trailing requested-byte-count byte of 0. -/
theorem c6_no_value_out_of_range_check :
    read_trans_size tagZeroRound.size tagZeroRound.trans_offset
        tagZeroRound.elem_size = 0
    ∧ (tagZeroRound.trans_offset : Int) < tagZeroRound.size
    ∧ build_read_request_callback tagZeroRound 300 0 0
        = .ok ([240, 0, 0, 0, 1, 0, 0, 250, 0, 6, 7, 3, 0], 13) :=
  ⟨rfl, by decide, rfl⟩

/-- C8: every field of the logical address is emitted as a single byte
when its value is at most 0xFE and otherwise as the escape byte 0xFF
followed by the 16-bit little-endian value, the sub-element field only
when present (non-negative); and (file_num=7, elem=3, sub_elem=-1)
encodes to exactly [0x06, 0x07, 0x03]. -/
theorem c8_field_escape_encoding (fnum elem sub cap : Int)
    (st : Int × List Nat) (r : Int × List Nat)
    (h : encode_plc5_logical_address cap st fnum elem sub = .ok r) :
    (r.2 = st.2 ++ (if sub > 0 then [0x0E] else [0x06])
        ++ (if fnum ≤ 0xFE then [byteOf fnum]
            else [0xFF, byteOf fnum, byteOf (fnum / 256)])
        ++ (if elem ≤ 0xFE then [byteOf elem]
            else [0xFF, byteOf elem, byteOf (elem / 256)])
        ++ (if 0 ≤ sub then
              (if sub ≤ 0xFE then [byteOf sub]
               else [0xFF, byteOf sub, byteOf (sub / 256)])
            else []))
    ∧ encode_plc5_logical_address 100 (0, []) 7 3 (-1)
        = .ok (3, [0x06, 0x07, 0x03]) := by
  have hr := encode_ok h
  subst hr
  refine ⟨?_, rfl⟩
  simp only [encBytes, escField]
  by_cases hs : sub ≥ 0
  · simp [if_pos hs, hs, List.append_assoc]
  · simp [if_neg hs, hs, List.append_assoc]

/-- Witness for C8 at the concrete input (7, 3, -1). -/
theorem c8_field_escape_encoding_witness :
    (((3 : Int), ([0x06, 0x07, 0x03] : List Nat)).2
        = ([] : List Nat) ++ (if (-1 : Int) > 0 then [0x0E] else [0x06])
        ++ (if (7 : Int) ≤ 0xFE then [byteOf 7]
            else [0xFF, byteOf 7, byteOf (7 / 256)])
        ++ (if (3 : Int) ≤ 0xFE then [byteOf 3]
            else [0xFF, byteOf 3, byteOf (3 / 256)])
        ++ (if (0 : Int) ≤ -1 then
              (if (-1 : Int) ≤ 0xFE then [byteOf (-1)]
               else [0xFF, byteOf (-1), byteOf (-1 / 256)])
            else []))
    ∧ encode_plc5_logical_address 100 (0, []) 7 3 (-1)
        = .ok (3, [0x06, 0x07, 0x03]) :=
  c8_field_escape_encoding 7 3 (-1) 100 (0, []) (3, [0x06, 0x07, 0x03]) rfl

/-- A successful logical-address encoding is between 3 and 10 bytes. -/
theorem encBytes_length_le (f e s : Int) : (encBytes f e s).length ≤ 10 := by
  unfold encBytes escField
  split_ifs <;> simp

/-- C3: under the preconditions of the claim (offset within the transfer,
positive element size) the per-round transfer size computed by the read
builder is a nonnegative multiple of the element size bounded by
min(244, remaining), and the one computed by the write builder is a
nonnegative multiple of the element size bounded by
min(244 - encoded-address-length, remaining), the address length being
that of an actual successful encoding. -/
theorem c3_trans_size_invariant (size : Int) (off es : Nat)
    (fnum elem sub cap : Int) (st : Int × List Nat) (r : Int × List Nat)
    (hoff : (off : Int) ≤ size) (hes : 0 < es)
    (henc : encode_plc5_logical_address cap st fnum elem sub = .ok r) :
    (0 ≤ read_trans_size size off es
      ∧ (es : Int) ∣ read_trans_size size off es
      ∧ read_trans_size size off es ≤ min 244 (size - (off : Int)))
    ∧ (0 ≤ write_trans_size size off es ((encBytes fnum elem sub).length : Int)
      ∧ (es : Int) ∣ write_trans_size size off es
          ((encBytes fnum elem sub).length : Int)
      ∧ write_trans_size size off es ((encBytes fnum elem sub).length : Int)
          ≤ min (244 - ((encBytes fnum elem sub).length : Int))
              (size - (off : Int))) := by
  have hes' : (0 : Int) < (es : Int) := by exact_mod_cast hes
  have hrem : 0 ≤ size - (off : Int) := by omega
  have hlen10 : ((encBytes fnum elem sub).length : Int) ≤ 10 := by
    exact_mod_cast encBytes_length_le fnum elem sub
  constructor
  · simp only [read_trans_size, PLC5_WORD_RANGE_READ_MAX_PAYLOAD]
    set m := if size - (off : Int) < 244 then size - (off : Int) else (244 : Int)
      with hmdef
    have hm : 0 ≤ m ∧ m ≤ 244 ∧ m ≤ size - (off : Int) := by
      rw [hmdef]
      split_ifs with hc <;> omega
    obtain ⟨hz, hle, hdvd⟩ := tdiv_mul_bounds hm.1 hes'
    exact ⟨hz, hdvd, le_min (le_trans hle hm.2.1) (le_trans hle hm.2.2)⟩
  · simp only [write_trans_size, PLC5_WORD_RANGE_WRITE_MAX_PAYLOAD]
    set L := ((encBytes fnum elem sub).length : Int) with hLdef
    set m := if size - (off : Int) < 244 - L then size - (off : Int)
             else (244 - L : Int) with hmdef
    have hm : 0 ≤ m ∧ m ≤ 244 - L ∧ m ≤ size - (off : Int) := by
      rw [hmdef]
      split_ifs with hc <;> omega
    obtain ⟨hz, hle, hdvd⟩ := tdiv_mul_bounds hm.1 hes'
    exact ⟨hz, hdvd, le_min (le_trans hle hm.2.1) (le_trans hle hm.2.2)⟩

/-- Witness for C3 at size = 500, offset = 0, element size = 2, address
(7, 3, -1): the read size is 244 and the write size is 240 (address
encodes to 3 bytes, budget 241 rounds down to 240). -/
theorem c3_trans_size_invariant_witness :
    (0 ≤ read_trans_size 500 0 2
      ∧ ((2 : Nat) : Int) ∣ read_trans_size 500 0 2
      ∧ read_trans_size 500 0 2 ≤ min 244 (500 - ((0 : Nat) : Int)))
    ∧ (0 ≤ write_trans_size 500 0 2 ((encBytes 7 3 (-1)).length : Int)
      ∧ ((2 : Nat) : Int) ∣ write_trans_size 500 0 2
          ((encBytes 7 3 (-1)).length : Int)
      ∧ write_trans_size 500 0 2 ((encBytes 7 3 (-1)).length : Int)
          ≤ min (244 - ((encBytes 7 3 (-1)).length : Int))
              (500 - ((0 : Nat) : Int))) :=
  c3_trans_size_invariant 500 0 2 7 3 (-1) 100 (0, []) (3, [6, 7, 3])
    (by decide) (by decide) rfl

/-- The error a malformed response must produce: TooSmall below 4 bytes,
BadReply otherwise (wrong command echo or nonzero status). -/
def expectedRespErr (resp : List Nat) : PlcStatus :=
  if resp.length < 4 then .ErrTooSmall else .ErrBadReply

/-- C4: a response shorter than 4 bytes makes both handlers return
TooSmall; one whose byte 0 is not the command-type byte ORed with the
success flag, or whose status byte 1 is nonzero, makes them return
BadReply; in all those cases trans_offset and the tag data buffer are
left unchanged. -/
theorem c4_malformed_response_rejection (tag : Plc5Tag) (resp : List Nat)
    (h : resp.length < 4 ∨ resp.getD 0 0 ≠ cmdOkByte ∨ resp.getD 1 0 ≠ 0) :
    (handle_read_response_callback tag resp).1 = expectedRespErr resp
    ∧ (handle_write_response_callback tag resp).1 = expectedRespErr resp
    ∧ (handle_read_response_callback tag resp).2.1.trans_offset = tag.trans_offset
    ∧ (handle_read_response_callback tag resp).2.1.data = tag.data
    ∧ (handle_write_response_callback tag resp).2.1.trans_offset = tag.trans_offset
    ∧ (handle_write_response_callback tag resp).2.1.data = tag.data := by
  unfold handle_read_response_callback handle_write_response_callback expectedRespErr
  simp only []
  split_ifs <;>
    first
      | exact ⟨rfl, rfl, rfl, rfl, rfl, rfl⟩
      | tauto

/-- Witness for C4 at a 4-byte response with a wrong command echo. -/
theorem c4_malformed_response_rejection_witness :
    (handle_read_response_callback tagWordOffset [1, 2, 3, 4]).1
        = expectedRespErr [1, 2, 3, 4]
    ∧ (handle_write_response_callback tagWordOffset [1, 2, 3, 4]).1
        = expectedRespErr [1, 2, 3, 4]
    ∧ (handle_read_response_callback tagWordOffset [1, 2, 3, 4]).2.1.trans_offset
        = tagWordOffset.trans_offset
    ∧ (handle_read_response_callback tagWordOffset [1, 2, 3, 4]).2.1.data
        = tagWordOffset.data
    ∧ (handle_write_response_callback tagWordOffset [1, 2, 3, 4]).2.1.trans_offset
        = tagWordOffset.trans_offset
    ∧ (handle_write_response_callback tagWordOffset [1, 2, 3, 4]).2.1.data
        = tagWordOffset.data :=
  c4_malformed_response_rejection tagWordOffset [1, 2, 3, 4]
    (Or.inr (Or.inl (by decide)))

/-- The scenario tag of C5: a fresh 500-byte transfer of 2-byte elements. -/
def tagScenario : Plc5Tag :=
  { elem_size := 2, elem_count := 250, data_file_num := 7, data_file_elem := 3,
    data_file_sub_elem := -1, trans_offset := 0, size := 500,
    data := fun _ => 0, status := .Pending }

/-- One full read round: build a request (the trailing byte is the
requested byte count), then handle a success response carrying exactly
that many payload bytes; returns the requested count, the tag after the
round, and the action the handler took. -/
def readRoundFull (tag : Plc5Tag) : Nat × Plc5Tag × HandleNext :=
  match build_read_request_callback tag 300 0 0 with
  | .error _ => (0, tag, .failed)
  | .ok (bytes, _) =>
      let ts := bytes.getLast?.getD 0
      let h := handle_read_response_callback tag
                 (cmdOkByte :: 0 :: 0 :: 0 :: List.replicate ts 0)
      (ts, h.2.1, h.2.2)

/-- The three successive rounds of the C5 scenario. -/
def c5Round1 : Nat × Plc5Tag × HandleNext := readRoundFull tagScenario

/-- Round 2 of the C5 scenario. -/
def c5Round2 : Nat × Plc5Tag × HandleNext := readRoundFull c5Round1.2.1

/-- Round 3 of the C5 scenario. -/
def c5Round3 : Nat × Plc5Tag × HandleNext := readRoundFull c5Round2.2.1

/-- C5: with total_size = 500 and element_size = 2 the read engine runs
exactly three rounds requesting 244, 244 and 12 bytes, the transfer
offset standing at 0, 244 and 488 when the rounds start; the third full
response completes the transfer (no further round is submitted), after
which trans_offset is reset to 0 and the tag status is Ok. -/
theorem c5_read_scenario_three_rounds :
    tagScenario.trans_offset = 0
    ∧ c5Round1.1 = 244 ∧ c5Round1.2.1.trans_offset = 244
    ∧ c5Round1.2.2 = .resubmit
    ∧ c5Round2.1 = 244 ∧ c5Round2.2.1.trans_offset = 488
    ∧ c5Round2.2.2 = .resubmit
    ∧ c5Round3.1 = 12 ∧ c5Round3.2.1.trans_offset = 0
    ∧ c5Round3.2.2 = .complete
    ∧ c5Round3.2.1.status = .Ok :=
  ⟨rfl, rfl, rfl, rfl, rfl, rfl, rfl, rfl, rfl, rfl, rfl⟩

/-- C6 (amended): the read request builder performs no element-size or
zero-round validation: whenever it succeeds while the rounded byte count
is 0 and bytes remain, it still produces a request, whose trailing
requested-byte-count byte is 0. -/
theorem c6_amended_no_validation (tag : Plc5Tag) (cap data_start : Int)
    (tsn : Nat) (r : List Nat × Int)
    (h : build_read_request_callback tag cap data_start tsn = .ok r)
    (h0 : read_trans_size tag.size tag.trans_offset tag.elem_size = 0)
    (hrem : (tag.trans_offset : Int) < tag.size) :
    r.1.getLast? = some 0 := by
  have hr := build_read_ok h
  rw [hr]
  simp [h0, byteOf, List.getLast?_concat]

/-- Witness for the amended C6 at tagZeroRound. -/
theorem c6_amended_no_validation_witness :
    ((([240, 0, 0, 0, 1, 0, 0, 250, 0, 6, 7, 3, 0] : List Nat),
      (13 : Int)) : List Nat × Int).1.getLast? = some 0 :=
  c6_amended_no_validation tagZeroRound 300 0 0
    ([240, 0, 0, 0, 1, 0, 0, 250, 0, 6, 7, 3, 0], 13) rfl rfl (by decide)

/-- C7: the write engine advances trans_offset inside the build callback,
by the number of payload bytes placed in the packet (the packet length
minus the 9 header bytes and the encoded address), before any
acknowledgment; the read engine advances trans_offset inside the handle
callback by the actual received payload length (response length minus
4), a quantity independent of any requested count. -/
theorem c7_offset_advance_points (tag : Plc5Tag) (cap : Int) (tsn : Nat)
    (r : List Nat × Plc5Tag) (resp : List Nat)
    (hw : build_write_request_callback tag cap tsn = .ok r)
    (hlen : 4 ≤ resp.length)
    (h0 : resp.getD 0 0 = cmdOkByte) (h1 : resp.getD 1 0 = 0)
    (hmid : (((tag.trans_offset + (resp.length - 4)) % 65536 : Nat) : Int)
        < tag.size) :
    r.2.trans_offset
      = (tag.trans_offset
          + (r.1.length - 9
              - (encBytes tag.data_file_num tag.data_file_elem
                  tag.data_file_sub_elem).length)) % 65536
    ∧ (handle_read_response_callback tag resp).2.1.trans_offset
        = (tag.trans_offset + (resp.length - 4)) % 65536
    ∧ (handle_read_response_callback tag resp).2.2 = .resubmit := by
  have hr := build_write_ok hw
  refine ⟨?_, ?_, ?_⟩
  · rw [hr]
    have h9 : (writeHeaderBytes tag tsn).length = 9 := rfl
    simp only [List.length_append, List.length_map, List.length_range, h9]
    congr 2
    omega
  · unfold handle_read_response_callback
    simp only []
    rw [if_neg (by omega : ¬resp.length < 4), if_neg (fun hn => hn h0),
        if_neg (fun hn => hn h1), if_pos hmid]
  · unfold handle_read_response_callback
    simp only []
    rw [if_neg (by omega : ¬resp.length < 4), if_neg (fun hn => hn h0),
        if_neg (fun hn => hn h1), if_pos hmid]

/-- A small fresh write of 6 bytes used to witness C7. -/
def tagSmall : Plc5Tag :=
  { elem_size := 2, elem_count := 3, data_file_num := 7, data_file_elem := 3,
    data_file_sub_elem := -1, trans_offset := 0, size := 6,
    data := fun _ => 0, status := .Ok }

/-- The packet and tag produced by the write builder on tagSmall. -/
def c7BuiltWrite : List Nat × Plc5Tag :=
  match build_write_request_callback tagSmall 300 0 with
  | .ok r => r
  | .error _ => ([], tagSmall)

/-- Witness for C7 on tagSmall and a 5-byte success response. -/
theorem c7_offset_advance_points_witness :
    c7BuiltWrite.2.trans_offset
      = (tagSmall.trans_offset
          + (c7BuiltWrite.1.length - 9
              - (encBytes tagSmall.data_file_num tagSmall.data_file_elem
                  tagSmall.data_file_sub_elem).length)) % 65536
    ∧ (handle_read_response_callback tagSmall [240, 0, 0, 0, 9]).2.1.trans_offset
        = (tagSmall.trans_offset + ([240, 0, 0, 0, 9].length - 4)) % 65536
    ∧ (handle_read_response_callback tagSmall [240, 0, 0, 0, 9]).2.2
        = .resubmit :=
  c7_offset_advance_points tagSmall 300 0 c7BuiltWrite [240, 0, 0, 0, 9]
    rfl (by decide) (by decide) (by decide) (by decide)

theorem writeBytes_getD {data : Nat → Nat} {l : List Nat} {off i : Nat}
    (h : i < l.length) : writeBytes data off l (off + i) = l.getD i 0 := by
  rw [writeBytes_get h, List.getD_eq_get?, List.get?_eq_get h]
  rfl

/-- C9: the read handler checks the payload length against nothing: for
any valid-looking response whose payload overruns the remaining buffer
space it still succeeds, and the copy loop writes the last payload byte
at index trans_offset + payload_length - 1, an index at or past the end
of the size-byte tag buffer. -/
theorem c9_read_copy_past_end (tag : Plc5Tag) (resp : List Nat)
    (hlen : 5 ≤ resp.length)
    (h0 : resp.getD 0 0 = cmdOkByte) (h1 : resp.getD 1 0 = 0)
    (hover : tag.size
        < (tag.trans_offset : Int) + ((resp.length - 4 : Nat) : Int)) :
    (handle_read_response_callback tag resp).1 = .Ok
    ∧ (handle_read_response_callback tag resp).2.1.data
          (tag.trans_offset + (resp.length - 5))
        = (resp.drop 4).getD (resp.length - 5) 0
    ∧ tag.size ≤ ((tag.trans_offset + (resp.length - 5) : Nat) : Int) := by
  have hidx : resp.length - 5 < (resp.drop 4).length := by
    rw [List.length_drop]
    omega
  unfold handle_read_response_callback
  simp only []
  rw [if_neg (by omega : ¬resp.length < 4), if_neg (fun hn => hn h0),
      if_neg (fun hn => hn h1)]
  refine ⟨?_, ?_, ?_⟩
  · split_ifs <;> rfl
  · split_ifs <;> exact writeBytes_getD hidx
  · omega

/-- A 2-byte tag buffer used to witness C9: a 3-byte payload overruns it. -/
def tagTiny : Plc5Tag :=
  { elem_size := 1, elem_count := 2, data_file_num := 7, data_file_elem := 3,
    data_file_sub_elem := -1, trans_offset := 0, size := 2,
    data := fun _ => 0, status := .Ok }

/-- Witness for C9: a valid response with 3 payload bytes against the
2-byte buffer of tagTiny writes index 2, one past the end. -/
theorem c9_read_copy_past_end_witness :
    (handle_read_response_callback tagTiny [240, 0, 0, 0, 7, 8, 9]).1 = .Ok
    ∧ (handle_read_response_callback tagTiny [240, 0, 0, 0, 7, 8, 9]).2.1.data
          (tagTiny.trans_offset + ([240, 0, 0, 0, 7, 8, 9].length - 5))
        = (([240, 0, 0, 0, 7, 8, 9] : List Nat).drop 4).getD
            ([240, 0, 0, 0, 7, 8, 9].length - 5) 0
    ∧ tagTiny.size
        ≤ ((tagTiny.trans_offset + ([240, 0, 0, 0, 7, 8, 9].length - 5) : Nat)
            : Int) :=
  c9_read_copy_past_end tagTiny [240, 0, 0, 0, 7, 8, 9] (by decide) (by decide)
    (by decide) (by decide)

/-- C10: the integer attribute getter overwrites the tag status with Ok
up front: a recognized name (elem_size or elem_count) leaves the status
Ok — erasing any previously recorded error that plc5_tag_status (the
poll-status operation) would have reported — while an unrecognized name
sets Unsupported and returns the caller-supplied default value. -/
theorem c10_get_int_attrib_status (tag : Plc5Tag) (name : String) (d : Int) :
    ((strCmpIEq name "elem_size" = true ∨ strCmpIEq name "elem_count" = true) →
        plc5_tag_status (plc5_get_int_attrib tag name d).2 = .Ok)
    ∧ (strCmpIEq name "elem_size" = false →
        strCmpIEq name "elem_count" = false →
        plc5_tag_status (plc5_get_int_attrib tag name d).2 = .ErrUnsupported
        ∧ (plc5_get_int_attrib tag name d).1 = d) := by
  unfold plc5_get_int_attrib plc5_tag_status
  simp only []
  constructor
  · rintro (h | h)
    · simp [h]
    · by_cases h2 : strCmpIEq name "elem_size" <;> simp [h, h2]
  · intro hs hc
    simp [hs, hc]

/-- A tag carrying a recorded terminal error, to witness the C10 status
erasure. -/
def tagErr : Plc5Tag :=
  { elem_size := 4, elem_count := 10, data_file_num := 7, data_file_elem := 3,
    data_file_sub_elem := -1, trans_offset := 0, size := 40,
    data := fun _ => 0, status := .ErrBadReply }

/-- Witness for C10: on a tag whose status is ErrBadReply, reading
elem_size resets the status to Ok, and an unrecognized name yields
Unsupported with the default value. -/
theorem c10_get_int_attrib_status_witness :
    plc5_tag_status (plc5_get_int_attrib tagErr "elem_size" 42).2 = .Ok
    ∧ (plc5_tag_status (plc5_get_int_attrib tagErr "banana" 42).2
          = .ErrUnsupported
        ∧ (plc5_get_int_attrib tagErr "banana" 42).1 = 42) :=
  ⟨(c10_get_int_attrib_status tagErr "elem_size" 42).1 (Or.inl (by decide)),
   (c10_get_int_attrib_status tagErr "banana" 42).2 (by decide) (by decide)⟩

end Plc5
